import Mathlib

/-!
Shallow embedding of the dipp dependency-injection core (01Pollux/dipp).

Sources embedded from the repository:
  * `include/dipp/details/policy.hpp` — `default_service_storage_memory_type`
    (owned instance list + key-to-instance alias map, reverse-order teardown).
  * `include/dipp/details/descriptor.hpp` — `base_service_descriptor::GetCombinedArgs`
    and `ApplyFactory` (dependency values before constructor arguments).
  * `include/dipp/details/collection.hpp` — `service_collection::emplace` delegating
    to the storage's `emplace_service`.
  * `include/dipp/details/scope.hpp` — `service_scope::get`, which forwards to
    `service_storage::get_service` with the shared singleton store and the
    scope-local store.

`storage.hpp` (`service_storage::get_service` / `emplace_service` / `has_service`),
`dependency.hpp` (`get_tuple_from_scope`) and `instance_info.hpp` are not among the
embedded sources; those parts are modelled from the specification, as marked on the
individual definitions.

Constructed service instances are identified by natural numbers allocated from a
monotone counter held by the provider state: two handles alias the same underlying
instance exactly when they carry the same identifier, and each allocation of a new
identifier corresponds to one run of a descriptor's build function.
-/

namespace Dipp

/-- The identity key of a service registration: `type_key_pair` combines a stable
per-value-type token with an optional user key (`include/dipp/details/type_key_pair.hpp`,
used as the map key in `policy.hpp`). Both components are modelled as naturals. -/
structure type_key_pair where
  typeId : Nat
  key : Nat
deriving DecidableEq, Repr

/-- The three service lifetimes of `service_lifetime` (`concepts.hpp`). -/
inductive service_lifetime where
  | transient
  | scoped
  | singleton
deriving DecidableEq, Repr

/-- Modelled from the spec: the descriptor data stored in the registry
(`service_info.hpp` is not among the embedded sources). A descriptor carries its
lifetime, its ordered dependency list (each dependency names an identity key and the
descriptor shape the dependent requests it with), and a `shape` token standing for
the descriptor's C++ type (used for the shape check behind `has_service`). The build
function itself is modelled by the allocation of a fresh instance identifier after
the dependencies have been resolved. -/
structure service_info where
  lifetime : service_lifetime
  deps : List (type_key_pair × Nat)
  shape : Nat
deriving DecidableEq, Repr

/-- The user-visible failure kinds (`errors.hpp`): `service_not_found` models the
`dipp::service_not_found` condition. `depth_exceeded` is the fuel-exhaustion marker
of the embedding and stands for the non-termination of cyclic dependency graphs,
which the source leaves undefined. -/
inductive di_error where
  | service_not_found
  | depth_exceeded
deriving DecidableEq, Repr

/-- Lookup in an association map with `std::map` semantics: at most one live binding
per key is ever consulted, and the first binding wins. -/
def mapFind {α : Type} : List (type_key_pair × α) → type_key_pair → Option α
  | [], _ => none
  | (k0, v0) :: rest, k => if k0 = k then some v0 else mapFind rest k

/-- Insert-if-absent with `std::map::emplace` semantics: returns the value reached
through the returned iterator (`.first->second`), i.e. the pre-existing binding when
the key is present, the new binding otherwise, together with the updated map. -/
def mapEmplace {α : Type} : List (type_key_pair × α) → type_key_pair → α →
    α × List (type_key_pair × α)
  | [], k, v => (v, [(k, v)])
  | (k0, v0) :: rest, k, v =>
    if k0 = k then (v0, (k0, v0) :: rest)
    else
      let r := mapEmplace rest k v
      (r.1, (k0, v0) :: r.2)

/-- The instance store `default_service_storage_memory_type` (`policy.hpp`):
`instances` is `m_Instances`, the ordered owning list of constructed instances
(identified by their allocation numbers), and `instanceRefs` is `m_InstanceRefs`,
the alias map from identity key to owned instance. -/
structure ServiceStorageMemory where
  instances : List Nat
  instanceRefs : List (type_key_pair × Nat)
deriving DecidableEq, Repr

/-- A freshly constructed, empty instance store. -/
def emptyStore : ServiceStorageMemory := ⟨[], []⟩

/-- `default_service_storage_memory_type::find` (`policy.hpp` lines 54-59): pure
lookup in the alias map; `none` models the `nullptr` result. -/
def storeFind (s : ServiceStorageMemory) (h : type_key_pair) : Option Nat :=
  mapFind s.instanceRefs h

/-- `default_service_storage_memory_type::emplace` (`policy.hpp` lines 64-75): the
new instance (here: its identifier, the construction itself having produced `inst`)
is always appended to the owning list, then the alias map is updated with
insert-if-absent semantics and the instance reached through the returned iterator is
handed back. -/
def storeEmplace (s : ServiceStorageMemory) (h : type_key_pair) (inst : Nat) :
    Nat × ServiceStorageMemory :=
  let r := mapEmplace s.instanceRefs h inst
  (r.1, ⟨s.instances ++ [inst], r.2⟩)

/-- The destructor of `default_service_storage_memory_type` (`policy.hpp` lines
41-48) resets the owned instances from `rbegin()` to `rend()`: the order in which
the owned instances are destroyed is the reverse of the owning list. -/
def destructionOrder (s : ServiceStorageMemory) : List Nat :=
  s.instances.reverse

/-- The values reachable through the alias map of a store. -/
def storeVals (s : ServiceStorageMemory) : List Nat :=
  s.instanceRefs.map Prod.snd

/-- Every instance aliased by the store was allocated before counter value `n`. -/
def storeWF (s : ServiceStorageMemory) (n : Nat) : Prop :=
  ∀ v ∈ storeVals s, v < n

/-- The descriptor registry built by `service_collection` (`default_service_policy`
in `policy.hpp`: a `std::map` from `type_key_pair` to `service_info`). -/
abbrev Registry := List (type_key_pair × service_info)

/-- Modelled from the spec: `service_storage::emplace_service` (`storage.hpp` is not
among the embedded sources), reached through `service_collection::emplace`
(`collection.hpp` lines 247-251): inserts only if the identity key is absent and
returns whether insertion occurred. -/
def emplace_service (reg : Registry) (k : type_key_pair) (d : service_info) :
    Bool × Registry :=
  match mapFind reg k with
  | some _ => (false, reg)
  | none => (true, reg ++ [(k, d)])

/-- Modelled from the spec: `service_storage::add_service` (`storage.hpp` is not
among the embedded sources), reached through `service_collection::add`: inserts
unconditionally, preserving registration order. -/
def add_service (reg : Registry) (k : type_key_pair) (d : service_info) : Registry :=
  reg ++ [(k, d)]

/-- The provider-wide resolution state: the shared singleton store owned by the
`service_provider`, and the allocation counter that identifies constructed
instances (each increment is one run of a build function). -/
structure ProviderState where
  singletons : ServiceStorageMemory
  nextId : Nat
deriving DecidableEq, Repr

/-- Modelled from the spec: `get_tuple_from_scope` (`dependency.hpp` is not among
the embedded sources) resolves the declared dependency list left to right, each
entry through a normal `get` on the same scope, threading the provider state and the
scope-local store; the first failure aborts and propagates. `g` is the scope's `get`
operation. -/
def resolveDepsWith
    (g : type_key_pair → Nat → ProviderState → ServiceStorageMemory →
      Except di_error Nat × ProviderState × ServiceStorageMemory) :
    List (type_key_pair × Nat) → ProviderState → ServiceStorageMemory →
      Except di_error (List Nat) × ProviderState × ServiceStorageMemory
  | [], ps, ls => (.ok [], ps, ls)
  | d :: rest, ps, ls =>
    match g d.1 d.2 ps ls with
    | (.error e, ps1, ls1) => (.error e, ps1, ls1)
    | (.ok v, ps1, ls1) =>
      match resolveDepsWith g rest ps1 ls1 with
      | (.error e, ps2, ls2) => (.error e, ps2, ls2)
      | (.ok vs, ps2, ls2) => (.ok (v :: vs), ps2, ls2)

/-- Modelled from the spec: `service_storage::get_service` (`storage.hpp` is not
among the embedded sources), the resolution state machine behind
`service_scope::get` (`scope.hpp` lines 47-52). Steps: look the identity up in the
registry (absent, or registered with a different descriptor shape, fails with
`service_not_found`); then branch on the lifetime: transient resolves the
dependencies and builds afresh, touching no cache itself; scoped consults the
scope-local store first and on a miss resolves the dependencies, builds, and
emplaces into the local store; singleton does the same against the shared singleton
store. The `fuel` argument bounds the recursion depth; a cyclic graph exhausts it
(`depth_exceeded`), standing for the source's unguarded recursion. -/
def getService (reg : Registry) : Nat → type_key_pair → Nat → ProviderState →
    ServiceStorageMemory → Except di_error Nat × ProviderState × ServiceStorageMemory
  | 0, _, _, ps, ls => (.error .depth_exceeded, ps, ls)
  | fuel + 1, h, shape, ps, ls =>
    match mapFind reg h with
    | none => (.error .service_not_found, ps, ls)
    | some info =>
      if info.shape = shape then
        match info.lifetime with
        | .transient =>
          match resolveDepsWith (getService reg fuel) info.deps ps ls with
          | (.error e, ps1, ls1) => (.error e, ps1, ls1)
          | (.ok _, ps1, ls1) => (.ok ps1.nextId, ⟨ps1.singletons, ps1.nextId + 1⟩, ls1)
        | .scoped =>
          match storeFind ls h with
          | some v => (.ok v, ps, ls)
          | none =>
            match resolveDepsWith (getService reg fuel) info.deps ps ls with
            | (.error e, ps1, ls1) => (.error e, ps1, ls1)
            | (.ok _, ps1, ls1) =>
              let r := storeEmplace ls1 h ps1.nextId
              (.ok r.1, ⟨ps1.singletons, ps1.nextId + 1⟩, r.2)
        | .singleton =>
          match storeFind ps.singletons h with
          | some v => (.ok v, ps, ls)
          | none =>
            match resolveDepsWith (getService reg fuel) info.deps ps ls with
            | (.error e, ps1, ls1) => (.error e, ps1, ls1)
            | (.ok _, ps1, ls1) =>
              let r := storeEmplace ps1.singletons h ps1.nextId
              (.ok r.1, ⟨r.2, ps1.nextId + 1⟩, ls1)
      else (.error .service_not_found, ps, ls)

/-- `base_service_descriptor::GetCombinedArgs` (`descriptor.hpp` lines 18-30): with
an empty dependency list the scope is not consulted and the constructor arguments
pass through unchanged; otherwise the tuple of dependency values resolved from the
scope is concatenated in front of the constructor arguments. -/
def GetCombinedArgs
    (g : type_key_pair → Nat → ProviderState → ServiceStorageMemory →
      Except di_error Nat × ProviderState × ServiceStorageMemory)
    (deps : List (type_key_pair × Nat)) (ps : ProviderState)
    (ls : ServiceStorageMemory) (args : List Nat) :
    Except di_error (List Nat) × ProviderState × ServiceStorageMemory :=
  if deps.length = 0 then (.ok args, ps, ls)
  else
    match resolveDepsWith g deps ps ls with
    | (.error e, ps1, ls1) => (.error e, ps1, ls1)
    | (.ok vs, ps1, ls1) => (.ok (vs ++ args), ps1, ls1)

/-- `base_service_descriptor::ApplyFactory` (`descriptor.hpp` lines 32-36): applies
the factory to the combined argument list. -/
def ApplyFactory {α : Type}
    (g : type_key_pair → Nat → ProviderState → ServiceStorageMemory →
      Except di_error Nat × ProviderState × ServiceStorageMemory)
    (deps : List (type_key_pair × Nat)) (ps : ProviderState)
    (ls : ServiceStorageMemory) (factory : List Nat → α) (args : List Nat) :
    Except di_error α × ProviderState × ServiceStorageMemory :=
  match GetCombinedArgs g deps ps ls args with
  | (.error e, ps1, ls1) => (.error e, ps1, ls1)
  | (.ok combined, ps1, ls1) => (.ok (factory combined), ps1, ls1)

/-! ### Association-map lemmas -/

theorem mapFind_mem_vals {α : Type} :
    ∀ (m : List (type_key_pair × α)) (k : type_key_pair) (v : α),
      mapFind m k = some v → v ∈ m.map Prod.snd := by
  intro m k v
  induction m with
  | nil => intro hv; simp [mapFind] at hv
  | cons p rest ih =>
    obtain ⟨k0, v0⟩ := p
    intro hv
    by_cases hk : k0 = k
    · simp [mapFind, hk] at hv
      simp [hv]
    · simp [mapFind, hk] at hv
      simp [ih hv]

theorem mapEmplace_of_find_none {α : Type} :
    ∀ (m : List (type_key_pair × α)) (k : type_key_pair) (v : α),
      mapFind m k = none → mapEmplace m k v = (v, m ++ [(k, v)]) := by
  intro m k v
  induction m with
  | nil => intro _; simp [mapEmplace]
  | cons p rest ih =>
    obtain ⟨k0, v0⟩ := p
    intro hnone
    by_cases hk : k0 = k
    · simp [mapFind, hk] at hnone
    · simp [mapFind, hk] at hnone
      simp [mapEmplace, hk, ih hnone]

theorem mapEmplace_of_find_some {α : Type} :
    ∀ (m : List (type_key_pair × α)) (k : type_key_pair) (v w : α),
      mapFind m k = some w → mapEmplace m k v = (w, m) := by
  intro m k v
  induction m with
  | nil => intro w hw; simp [mapFind] at hw
  | cons p rest ih =>
    obtain ⟨k0, v0⟩ := p
    intro w hw
    by_cases hk : k0 = k
    · simp [mapFind, hk] at hw
      simp [mapEmplace, hk, hw]
    · simp [mapFind, hk] at hw
      simp [mapEmplace, hk, ih w hw]

theorem mapFind_mapEmplace_self {α : Type}
    (m : List (type_key_pair × α)) (k : type_key_pair) (v : α) :
    mapFind (mapEmplace m k v).2 k = some (mapEmplace m k v).1 := by
  induction m with
  | nil => simp [mapEmplace, mapFind]
  | cons p rest ih =>
    obtain ⟨k0, v0⟩ := p
    by_cases hk : k0 = k
    · simp [mapEmplace, hk, mapFind]
    · simp [mapEmplace, hk, mapFind, ih]

theorem mapEmplace_vals {α : Type} :
    ∀ (m : List (type_key_pair × α)) (k : type_key_pair) (v w : α),
      w ∈ (mapEmplace m k v).2.map Prod.snd → w ∈ m.map Prod.snd ∨ w = v := by
  intro m k v
  induction m with
  | nil =>
    intro w hw
    simp only [mapEmplace, List.map_cons, List.map_nil, List.mem_singleton] at hw
    exact Or.inr hw
  | cons p rest ih =>
    obtain ⟨k0, v0⟩ := p
    intro w hw
    by_cases hk : k0 = k
    · simp only [mapEmplace, if_pos hk] at hw
      exact Or.inl hw
    · simp only [mapEmplace, if_neg hk] at hw
      rw [List.map_cons] at hw
      rcases List.mem_cons.mp hw with hw1 | hw1
      · subst hw1
        exact Or.inl (by rw [List.map_cons]; exact List.mem_cons_self _ _)
      · rcases ih w hw1 with hw2 | hw2
        · exact Or.inl (by rw [List.map_cons]; exact List.mem_cons_of_mem _ hw2)
        · exact Or.inr hw2

theorem mapEmplace_fst {α : Type}
    (m : List (type_key_pair × α)) (k : type_key_pair) (v : α) :
    (mapEmplace m k v).1 ∈ m.map Prod.snd ∨ (mapEmplace m k v).1 = v :=
  mapEmplace_vals m k v (mapEmplace m k v).1
    (mapFind_mem_vals (mapEmplace m k v).2 k (mapEmplace m k v).1
      (mapFind_mapEmplace_self m k v))

/-! ### Store-level corollaries -/

theorem storeFind_storeEmplace_self (s : ServiceStorageMemory) (h : type_key_pair)
    (inst : Nat) :
    storeFind (storeEmplace s h inst).2 h = some (storeEmplace s h inst).1 :=
  mapFind_mapEmplace_self s.instanceRefs h inst

theorem storeVals_storeEmplace (s : ServiceStorageMemory) (h : type_key_pair)
    (inst w : Nat) (hw : w ∈ storeVals (storeEmplace s h inst).2) :
    w ∈ storeVals s ∨ w = inst :=
  mapEmplace_vals s.instanceRefs h inst w hw

theorem storeEmplace_fst (s : ServiceStorageMemory) (h : type_key_pair) (inst : Nat) :
    (storeEmplace s h inst).1 ∈ storeVals s ∨ (storeEmplace s h inst).1 = inst :=
  mapEmplace_fst s.instanceRefs h inst

theorem storeFind_mem_vals (s : ServiceStorageMemory) (h : type_key_pair) (v : Nat)
    (hv : storeFind s h = some v) : v ∈ storeVals s :=
  mapFind_mem_vals s.instanceRefs h v hv

theorem storeEmplace_instances (s : ServiceStorageMemory) (h : type_key_pair)
    (inst : Nat) : (storeEmplace s h inst).2.instances = s.instances ++ [inst] := rfl

/-! ### Evolution of the resolution state

`Evolves ps ls ps2 ls2` relates a pre-state to a post-state of any resolution step:
the allocation counter is monotone, every instance that appears in a store either
was already there or was allocated during the step, and well-formedness of the
stores with respect to the counter is preserved. -/

def Evolves (ps : ProviderState) (ls : ServiceStorageMemory) (ps2 : ProviderState)
    (ls2 : ServiceStorageMemory) : Prop :=
  ps.nextId ≤ ps2.nextId
  ∧ (∀ w ∈ storeVals ls2, w ∈ storeVals ls ∨ ps.nextId ≤ w)
  ∧ (∀ w ∈ storeVals ps2.singletons, w ∈ storeVals ps.singletons ∨ ps.nextId ≤ w)
  ∧ (storeWF ls ps.nextId → storeWF ps.singletons ps.nextId →
      storeWF ls2 ps2.nextId ∧ storeWF ps2.singletons ps2.nextId)

theorem evolves_refl (ps : ProviderState) (ls : ServiceStorageMemory) :
    Evolves ps ls ps ls := by
  refine ⟨Nat.le_refl _, ?_, ?_, ?_⟩
  · intro w hw; exact Or.inl hw
  · intro w hw; exact Or.inl hw
  · intro h1 h2; exact ⟨h1, h2⟩

theorem evolves_trans {ps ps1 ps2 : ProviderState}
    {ls ls1 ls2 : ServiceStorageMemory}
    (e1 : Evolves ps ls ps1 ls1) (e2 : Evolves ps1 ls1 ps2 ls2) :
    Evolves ps ls ps2 ls2 := by
  obtain ⟨n1, l1, s1, w1⟩ := e1
  obtain ⟨n2, l2, s2, w2⟩ := e2
  refine ⟨Nat.le_trans n1 n2, ?_, ?_, ?_⟩
  · intro w hw
    rcases l2 w hw with hw2 | hw2
    · exact l1 w hw2
    · exact Or.inr (Nat.le_trans n1 hw2)
  · intro w hw
    rcases s2 w hw with hw2 | hw2
    · exact s1 w hw2
    · exact Or.inr (Nat.le_trans n1 hw2)
  · intro h1 h2
    obtain ⟨h3, h4⟩ := w1 h1 h2
    exact w2 h3 h4

/-- Resolving a dependency list with any scope operation that only evolves the
state again only evolves the state. -/
theorem resolveDepsWith_evolves
    (g : type_key_pair → Nat → ProviderState → ServiceStorageMemory →
      Except di_error Nat × ProviderState × ServiceStorageMemory)
    (Hg : ∀ hD sD ps ls, Evolves ps ls (g hD sD ps ls).2.1 (g hD sD ps ls).2.2) :
    ∀ (deps : List (type_key_pair × Nat)) (ps : ProviderState)
      (ls : ServiceStorageMemory),
      Evolves ps ls (resolveDepsWith g deps ps ls).2.1
        (resolveDepsWith g deps ps ls).2.2 := by
  intro deps
  induction deps with
  | nil => intro ps ls; exact evolves_refl ps ls
  | cons d rest ih =>
    intro ps ls
    rcases hg : g d.1 d.2 ps ls with ⟨res1, ps1, ls1⟩
    have e1 : Evolves ps ls ps1 ls1 := by
      have := Hg d.1 d.2 ps ls
      rw [hg] at this
      exact this
    cases res1 with
    | error e =>
      simp [resolveDepsWith, hg]
      exact e1
    | ok v =>
      rcases hr : resolveDepsWith g rest ps1 ls1 with ⟨res2, ps2, ls2⟩
      have e2 : Evolves ps1 ls1 ps2 ls2 := by
        have := ih ps1 ls1
        rw [hr] at this
        exact this
      cases res2 with
      | error e =>
        simp [resolveDepsWith, hg, hr]
        exact evolves_trans e1 e2
      | ok vs =>
        simp [resolveDepsWith, hg, hr]
        exact evolves_trans e1 e2

theorem evolves_bump {ps ps1 : ProviderState} {ls ls1 : ServiceStorageMemory}
    (e : Evolves ps ls ps1 ls1) :
    Evolves ps ls ⟨ps1.singletons, ps1.nextId + 1⟩ ls1 := by
  obtain ⟨n1, l1, s1, w1⟩ := e
  refine ⟨Nat.le_trans n1 (Nat.le_succ _), l1, s1, ?_⟩
  intro h1 h2
  obtain ⟨h3, h4⟩ := w1 h1 h2
  constructor
  · intro v hv; exact Nat.lt_succ_of_lt (h3 v hv)
  · intro v hv; exact Nat.lt_succ_of_lt (h4 v hv)

theorem evolves_scoped_emplace {ps ps1 : ProviderState}
    {ls ls1 : ServiceStorageMemory} (h : type_key_pair)
    (e : Evolves ps ls ps1 ls1) :
    Evolves ps ls ⟨ps1.singletons, ps1.nextId + 1⟩
      (storeEmplace ls1 h ps1.nextId).2 := by
  obtain ⟨n1, l1, s1, w1⟩ := e
  refine ⟨Nat.le_trans n1 (Nat.le_succ _), ?_, s1, ?_⟩
  · intro w hw
    rcases storeVals_storeEmplace ls1 h ps1.nextId w hw with hw1 | hw1
    · exact l1 w hw1
    · exact Or.inr (hw1 ▸ n1)
  · intro h1 h2
    obtain ⟨h3, h4⟩ := w1 h1 h2
    constructor
    · intro v hv
      rcases storeVals_storeEmplace ls1 h ps1.nextId v hv with hv1 | hv1
      · exact Nat.lt_succ_of_lt (h3 v hv1)
      · exact hv1 ▸ Nat.lt_succ_self _
    · intro v hv; exact Nat.lt_succ_of_lt (h4 v hv)

theorem evolves_singleton_emplace {ps ps1 : ProviderState}
    {ls ls1 : ServiceStorageMemory} (h : type_key_pair)
    (e : Evolves ps ls ps1 ls1) :
    Evolves ps ls ⟨(storeEmplace ps1.singletons h ps1.nextId).2, ps1.nextId + 1⟩
      ls1 := by
  obtain ⟨n1, l1, s1, w1⟩ := e
  refine ⟨Nat.le_trans n1 (Nat.le_succ _), l1, ?_, ?_⟩
  · intro w hw
    rcases storeVals_storeEmplace ps1.singletons h ps1.nextId w hw with hw1 | hw1
    · exact s1 w hw1
    · exact Or.inr (hw1 ▸ n1)
  · intro h1 h2
    obtain ⟨h3, h4⟩ := w1 h1 h2
    constructor
    · intro v hv; exact Nat.lt_succ_of_lt (h3 v hv)
    · intro v hv
      rcases storeVals_storeEmplace ps1.singletons h ps1.nextId v hv with hv1 | hv1
      · exact Nat.lt_succ_of_lt (h4 v hv1)
      · exact hv1 ▸ Nat.lt_succ_self _

/-- Every `getService` step evolves the resolution state, and every successfully
returned handle was allocated before the final counter value (given well-formed
input stores). -/
theorem getService_evolves (reg : Registry) :
    ∀ (fuel : Nat) (h : type_key_pair) (shape : Nat) (ps : ProviderState)
      (ls : ServiceStorageMemory),
      Evolves ps ls (getService reg fuel h shape ps ls).2.1
          (getService reg fuel h shape ps ls).2.2
        ∧ ∀ v, (getService reg fuel h shape ps ls).1 = .ok v →
            storeWF ls ps.nextId → storeWF ps.singletons ps.nextId →
            v < (getService reg fuel h shape ps ls).2.1.nextId := by
  intro fuel
  induction fuel with
  | zero =>
    intro h shape ps ls
    exact ⟨evolves_refl ps ls, fun v hv => Except.noConfusion hv⟩
  | succ fuel ih =>
    intro h shape ps ls
    have hdep : ∀ (deps : List (type_key_pair × Nat)) (ps0 : ProviderState)
        (ls0 : ServiceStorageMemory),
        Evolves ps0 ls0
          (resolveDepsWith (getService reg fuel) deps ps0 ls0).2.1
          (resolveDepsWith (getService reg fuel) deps ps0 ls0).2.2 :=
      resolveDepsWith_evolves (getService reg fuel)
        (fun hD sD ps0 ls0 => (ih hD sD ps0 ls0).1)
    rcases hreg : mapFind reg h with _ | info
    · simp only [getService, hreg]
      exact ⟨evolves_refl ps ls, fun v hv => Except.noConfusion hv⟩
    · by_cases hsh : info.shape = shape
      · cases hlt : info.lifetime
        · rcases hr : resolveDepsWith (getService reg fuel) info.deps ps ls
            with ⟨res1, ps1, ls1⟩
          have e1 : Evolves ps ls ps1 ls1 := by
            have := hdep info.deps ps ls
            rw [hr] at this
            exact this
          cases res1 with
          | error e =>
            simp only [getService, hreg, if_pos hsh, hlt, hr]
            exact ⟨e1, fun v hv => Except.noConfusion hv⟩
          | ok vs =>
            simp only [getService, hreg, if_pos hsh, hlt, hr]
            refine ⟨evolves_bump e1, ?_⟩
            intro v hv _ _
            have hveq : ps1.nextId = v := Except.ok.inj hv
            show v < ps1.nextId + 1
            exact hveq ▸ Nat.lt_succ_self _
        · rcases hf : storeFind ls h with _ | v0
          · rcases hr : resolveDepsWith (getService reg fuel) info.deps ps ls
              with ⟨res1, ps1, ls1⟩
            have e1 : Evolves ps ls ps1 ls1 := by
              have := hdep info.deps ps ls
              rw [hr] at this
              exact this
            cases res1 with
            | error e =>
              simp only [getService, hreg, if_pos hsh, hlt, hf, hr]
              exact ⟨e1, fun v hv => Except.noConfusion hv⟩
            | ok vs =>
              simp only [getService, hreg, if_pos hsh, hlt, hf, hr]
              refine ⟨evolves_scoped_emplace h e1, ?_⟩
              intro v hv hwl hws
              have hveq : (storeEmplace ls1 h ps1.nextId).1 = v :=
                Except.ok.inj hv
              obtain ⟨h3, _⟩ := e1.2.2.2 hwl hws
              show v < ps1.nextId + 1
              rcases storeEmplace_fst ls1 h ps1.nextId with hm | hm
              · exact hveq ▸ Nat.lt_succ_of_lt (h3 _ hm)
              · rw [← hveq, hm]
                exact Nat.lt_succ_self _
          · simp only [getService, hreg, if_pos hsh, hlt, hf]
            refine ⟨evolves_refl ps ls, ?_⟩
            intro v hv hwl _
            have hveq : v0 = v := Except.ok.inj hv
            show v < ps.nextId
            exact hveq ▸ hwl v0 (storeFind_mem_vals ls h v0 hf)
        · rcases hf : storeFind ps.singletons h with _ | v0
          · rcases hr : resolveDepsWith (getService reg fuel) info.deps ps ls
              with ⟨res1, ps1, ls1⟩
            have e1 : Evolves ps ls ps1 ls1 := by
              have := hdep info.deps ps ls
              rw [hr] at this
              exact this
            cases res1 with
            | error e =>
              simp only [getService, hreg, if_pos hsh, hlt, hf, hr]
              exact ⟨e1, fun v hv => Except.noConfusion hv⟩
            | ok vs =>
              simp only [getService, hreg, if_pos hsh, hlt, hf, hr]
              refine ⟨evolves_singleton_emplace h e1, ?_⟩
              intro v hv hwl hws
              have hveq : (storeEmplace ps1.singletons h ps1.nextId).1 = v :=
                Except.ok.inj hv
              obtain ⟨_, h4⟩ := e1.2.2.2 hwl hws
              show v < ps1.nextId + 1
              rcases storeEmplace_fst ps1.singletons h ps1.nextId with hm | hm
              · exact hveq ▸ Nat.lt_succ_of_lt (h4 _ hm)
              · rw [← hveq, hm]
                exact Nat.lt_succ_self _
          · simp only [getService, hreg, if_pos hsh, hlt, hf]
            refine ⟨evolves_refl ps ls, ?_⟩
            intro v hv _ hws
            have hveq : v0 = v := Except.ok.inj hv
            show v < ps.nextId
            exact hveq ▸ hws v0 (storeFind_mem_vals ps.singletons h v0 hf)
      · simp only [getService, hreg, if_neg hsh]
        exact ⟨evolves_refl ps ls, fun v hv => Except.noConfusion hv⟩

/-- After a successful `get` of a singleton identity, the returned instance is the
one the shared singleton store aliases for that identity. -/
theorem singleton_get_cached (reg : Registry) (fuel : Nat) (h : type_key_pair)
    (shape : Nat) (ps : ProviderState) (ls : ServiceStorageMemory)
    (info : service_info) (v : Nat) (ps2 : ProviderState)
    (ls2 : ServiceStorageMemory)
    (hreg : mapFind reg h = some info) (hlt : info.lifetime = .singleton)
    (hsh : info.shape = shape)
    (hok : getService reg (fuel + 1) h shape ps ls = (.ok v, ps2, ls2)) :
    storeFind ps2.singletons h = some v := by
  rcases hf : storeFind ps.singletons h with _ | v0
  · rcases hr : resolveDepsWith (getService reg fuel) info.deps ps ls
      with ⟨res1, ps1, ls1⟩
    simp only [getService, hreg, if_pos hsh, hlt, hf, hr] at hok
    cases res1 with
    | error e => simp at hok
    | ok vs =>
      simp only [Prod.mk.injEq] at hok
      obtain ⟨h1, h2, h3⟩ := hok
      have hv : (storeEmplace ps1.singletons h ps1.nextId).1 = v :=
        Except.ok.inj h1
      rw [← h2]
      show storeFind (storeEmplace ps1.singletons h ps1.nextId).2 h = some v
      rw [storeFind_storeEmplace_self, hv]
  · simp only [getService, hreg, if_pos hsh, hlt, hf, Prod.mk.injEq] at hok
    obtain ⟨h1, h2, h3⟩ := hok
    have hv : v0 = v := Except.ok.inj h1
    rw [← h2, hf, hv]

/-- After a successful `get` of a scoped identity, the returned instance is the one
the scope-local store aliases for that identity. -/
theorem scoped_get_cached (reg : Registry) (fuel : Nat) (h : type_key_pair)
    (shape : Nat) (ps : ProviderState) (ls : ServiceStorageMemory)
    (info : service_info) (v : Nat) (ps2 : ProviderState)
    (ls2 : ServiceStorageMemory)
    (hreg : mapFind reg h = some info) (hlt : info.lifetime = .scoped)
    (hsh : info.shape = shape)
    (hok : getService reg (fuel + 1) h shape ps ls = (.ok v, ps2, ls2)) :
    storeFind ls2 h = some v := by
  rcases hf : storeFind ls h with _ | v0
  · rcases hr : resolveDepsWith (getService reg fuel) info.deps ps ls
      with ⟨res1, ps1, ls1⟩
    simp only [getService, hreg, if_pos hsh, hlt, hf, hr] at hok
    cases res1 with
    | error e => simp at hok
    | ok vs =>
      simp only [Prod.mk.injEq] at hok
      obtain ⟨h1, h2, h3⟩ := hok
      have hv : (storeEmplace ls1 h ps1.nextId).1 = v :=
        Except.ok.inj h1
      rw [← h3]
      show storeFind (storeEmplace ls1 h ps1.nextId).2 h = some v
      rw [storeFind_storeEmplace_self, hv]
  · simp only [getService, hreg, if_pos hsh, hlt, hf, Prod.mk.injEq] at hok
    obtain ⟨h1, h2, h3⟩ := hok
    have hv : v0 = v := Except.ok.inj h1
    rw [← h3, hf, hv]

theorem storeWF_empty (n : Nat) : storeWF emptyStore n := by
  intro v hv
  simp [storeVals, emptyStore] at hv

/-- A failure while resolving a dependency aborts the rest of the dependency list:
the error and the state at the failure point are returned as they are. -/
theorem resolveDepsWith_append_error
    (g : type_key_pair → Nat → ProviderState → ServiceStorageMemory →
      Except di_error Nat × ProviderState × ServiceStorageMemory) :
    ∀ (pre : List (type_key_pair × Nat)) (d : type_key_pair × Nat)
      (rest : List (type_key_pair × Nat)) (ps : ProviderState)
      (ls : ServiceStorageMemory) (vs : List Nat) (ps1 : ProviderState)
      (ls1 : ServiceStorageMemory) (e : di_error) (ps2 : ProviderState)
      (ls2 : ServiceStorageMemory),
      resolveDepsWith g pre ps ls = (.ok vs, ps1, ls1) →
      g d.1 d.2 ps1 ls1 = (.error e, ps2, ls2) →
      resolveDepsWith g (pre ++ d :: rest) ps ls = (.error e, ps2, ls2) := by
  intro pre
  induction pre with
  | nil =>
    intro d rest ps ls vs ps1 ls1 e ps2 ls2 hpre hg
    simp only [resolveDepsWith, Prod.mk.injEq] at hpre
    obtain ⟨_, hps, hls⟩ := hpre
    subst hps; subst hls
    simp only [List.nil_append, resolveDepsWith, hg]
  | cons d0 pre ih =>
    intro d rest ps ls vs ps1 ls1 e ps2 ls2 hpre hg
    rcases hg0 : g d0.1 d0.2 ps ls with ⟨r0, psa, lsa⟩
    cases r0 with
    | error e0 => simp [resolveDepsWith, hg0] at hpre
    | ok v0 =>
      rcases hr0 : resolveDepsWith g pre psa lsa with ⟨r1, psb, lsb⟩
      cases r1 with
      | error e1 => simp [resolveDepsWith, hg0, hr0] at hpre
      | ok vs0 =>
        simp only [resolveDepsWith, hg0, hr0, Prod.mk.injEq] at hpre
        obtain ⟨_, hps, hls⟩ := hpre
        subst hps; subst hls
        have hrec := ih d rest psa lsa vs0 psb lsb e ps2 ls2 hr0 hg
        show resolveDepsWith g (d0 :: (pre ++ d :: rest)) ps ls
          = (.error e, ps2, ls2)
        simp only [resolveDepsWith, hg0, hrec]

/-- When the requested identity is not yet cached in the store its lifetime
consults, a failure of the dependency resolution propagates out of `get` with the
state the failing resolution left behind. -/
theorem getService_deps_error (reg : Registry) (fuel : Nat) (h : type_key_pair)
    (shape : Nat) (info : service_info) (ps : ProviderState)
    (ls : ServiceStorageMemory) (e : di_error) (ps1 : ProviderState)
    (ls1 : ServiceStorageMemory)
    (hreg : mapFind reg h = some info) (hsh : info.shape = shape)
    (hlsl : storeFind ls h = none) (hsing : storeFind ps.singletons h = none)
    (hr : resolveDepsWith (getService reg fuel) info.deps ps ls
      = (.error e, ps1, ls1)) :
    getService reg (fuel + 1) h shape ps ls = (.error e, ps1, ls1) := by
  cases hlt : info.lifetime
  · simp only [getService, hreg, if_pos hsh, hlt, hr]
  · simp only [getService, hreg, if_pos hsh, hlt, hlsl, hr]
  · simp only [getService, hreg, if_pos hsh, hlt, hsing, hr]

theorem mapFind_append_self {α : Type} :
    ∀ (m : List (type_key_pair × α)) (k : type_key_pair) (v : α),
      mapFind m k = none → mapFind (m ++ [(k, v)]) k = some v := by
  intro m k v
  induction m with
  | nil => intro _; simp [mapFind]
  | cons p rest ih =>
    obtain ⟨k0, v0⟩ := p
    intro hnone
    by_cases hk : k0 = k
    · simp [mapFind, hk] at hnone
    · simp only [mapFind, hk] at hnone
      simp only [List.cons_append, mapFind, if_neg hk]
      exact ih hnone

/-! ### The claims -/

/-- Claim C1: for every identity registered with singleton lifetime, once a `get`
has succeeded on any scope, every later `get` of that identity — on the root scope
or on any scope created from the same provider, i.e. with an arbitrary scope-local
store — returns a handle to the very same underlying instance and leaves the
provider state (singleton store and allocation counter) untouched: the build
function runs at most once per provider for that identity. -/
theorem singleton_sharing (reg : Registry) (fuel : Nat) (h : type_key_pair)
    (shape : Nat) (ps : ProviderState) (ls : ServiceStorageMemory)
    (info : service_info) (v : Nat) (ps1 : ProviderState)
    (ls1 : ServiceStorageMemory)
    (hreg : mapFind reg h = some info) (hlt : info.lifetime = .singleton)
    (hsh : info.shape = shape)
    (hok : getService reg (fuel + 1) h shape ps ls = (.ok v, ps1, ls1)) :
    ∀ (fuel2 : Nat) (ls2 : ServiceStorageMemory),
      getService reg (fuel2 + 1) h shape ps1 ls2 = (.ok v, ps1, ls2) := by
  intro fuel2 ls2
  have hc : storeFind ps1.singletons h = some v :=
    singleton_get_cached reg fuel h shape ps ls info v ps1 ls1 hreg hlt hsh hok
  simp only [getService, hreg, if_pos hsh, hlt, hc]

/-- Claim C2: for every identity registered with scoped lifetime, a `get` from one
fresh scope and a `get` from a sibling fresh scope of the same provider never
return the same instance, and within one scope every repeated `get` returns the
instance of the first `get` (leaving all state untouched). -/
theorem scoped_isolation (reg : Registry) (fuel1 fuel2 : Nat) (h : type_key_pair)
    (shape : Nat) (ps : ProviderState) (info : service_info)
    (v1 : Nat) (ps1 : ProviderState) (ls1 : ServiceStorageMemory)
    (v2 : Nat) (ps2 : ProviderState) (ls2 : ServiceStorageMemory)
    (hreg : mapFind reg h = some info) (hlt : info.lifetime = .scoped)
    (hsh : info.shape = shape)
    (hwf : storeWF ps.singletons ps.nextId)
    (hok1 : getService reg (fuel1 + 1) h shape ps emptyStore = (.ok v1, ps1, ls1))
    (hok2 : getService reg (fuel2 + 1) h shape ps1 emptyStore
      = (.ok v2, ps2, ls2)) :
    v1 ≠ v2
    ∧ ∀ (fuel3 : Nat) (ps3 : ProviderState),
        getService reg (fuel3 + 1) h shape ps3 ls1 = (.ok v1, ps3, ls1) := by
  have hc : storeFind ls1 h = some v1 :=
    scoped_get_cached reg fuel1 h shape ps emptyStore info v1 ps1 ls1
      hreg hlt hsh hok1
  constructor
  · have hev1 := getService_evolves reg (fuel1 + 1) h shape ps emptyStore
    rw [hok1] at hev1
    have hb1 : v1 < ps1.nextId := hev1.2 v1 rfl (storeWF_empty ps.nextId) hwf
    rcases hr : resolveDepsWith (getService reg fuel2) info.deps ps1 emptyStore
      with ⟨res1, psd, lsd⟩
    have hfe : storeFind emptyStore h = none := rfl
    simp only [getService, hreg, if_pos hsh, hlt, hfe, hr] at hok2
    cases res1 with
    | error e => simp at hok2
    | ok vs =>
      simp only [Prod.mk.injEq] at hok2
      obtain ⟨h1, _, _⟩ := hok2
      have hv2 : (storeEmplace lsd h psd.nextId).1 = v2 := Except.ok.inj h1
      have hevd := resolveDepsWith_evolves (getService reg fuel2)
        (fun hD sD ps0 ls0 => (getService_evolves reg fuel2 hD sD ps0 ls0).1)
        info.deps ps1 emptyStore
      rw [hr] at hevd
      obtain ⟨hn, hl, _, _⟩ := hevd
      have hb2 : ps1.nextId ≤ v2 := by
        rw [← hv2]
        rcases storeEmplace_fst lsd h psd.nextId with hm | hm
        · rcases hl _ hm with hin | hin
          · simp [storeVals, emptyStore] at hin
          · exact hin
        · rw [hm]; exact hn
      exact Nat.ne_of_lt (Nat.lt_of_lt_of_le hb1 hb2)
  · intro fuel3 ps3
    simp only [getService, hreg, if_pos hsh, hlt, hc]

/-! ### Concrete fixtures used by the witnesses -/

/-- An identity key for a dependency-free singleton registration. -/
def kWindow : type_key_pair := ⟨0, 0⟩

/-- A registry with one dependency-free singleton service. -/
def regWindow : Registry := [(kWindow, ⟨.singleton, [], 0⟩)]

/-- The provider state of a freshly built provider: empty singleton store, no
instance allocated yet. -/
def psEmpty : ProviderState := ⟨emptyStore, 0⟩

/-- An identity key for a dependency-free scoped registration. -/
def kDep : type_key_pair := ⟨1, 0⟩

/-- An identity key for a transient registration depending on `kDep`. -/
def kTrans : type_key_pair := ⟨2, 0⟩

/-- A registry with a scoped service `kDep` and a transient service `kTrans` whose
dependency list is `[kDep]`. -/
def regTransDep : Registry :=
  [(kDep, ⟨.scoped, [], 0⟩), (kTrans, ⟨.transient, [(kDep, 0)], 0⟩)]

/-- Claim C3 counterexample: in `regTransDep` the transient service `kTrans`
depends on the scoped service `kDep`. A single `get` of `kTrans` on a fresh scope
succeeds but does not leave the scope-local instance store unchanged: resolving
the dependency caches an instance of `kDep` there, so a transient `get` does not in
general leave both instance stores completely unchanged. -/
theorem transient_frame_counterexample :
    getService regTransDep 2 kTrans 0 psEmpty emptyStore
      = (.ok 1, ⟨emptyStore, 2⟩, ⟨[0], [(kDep, 0)]⟩)
    ∧ (⟨[0], [(kDep, 0)]⟩ : ServiceStorageMemory) ≠ emptyStore :=
  ⟨rfl, by decide⟩

/-- Claim C3 (amended): for every identity registered with transient lifetime,
each successful `get` invokes the build function afresh (the allocation counter
strictly increases) and two consecutive `get` calls never return the same
instance; when the transient service has an empty dependency list, the `get`
returns the freshly built instance and leaves both the scope-local store and the
shared singleton store completely unchanged (with dependencies, entries may be
cached for the dependencies, but never for the transient identity itself via this
`get`). -/
theorem transient_freshness (reg : Registry) (fuel1 fuel2 : Nat)
    (h : type_key_pair) (shape : Nat) (ps : ProviderState)
    (ls : ServiceStorageMemory) (info : service_info)
    (hreg : mapFind reg h = some info) (hlt : info.lifetime = .transient)
    (hsh : info.shape = shape) :
    (∀ (v1 : Nat) (ps1 : ProviderState) (ls1 : ServiceStorageMemory) (v2 : Nat)
        (ps2 : ProviderState) (ls2 : ServiceStorageMemory),
        getService reg (fuel1 + 1) h shape ps ls = (.ok v1, ps1, ls1) →
        getService reg (fuel2 + 1) h shape ps1 ls1 = (.ok v2, ps2, ls2) →
        v1 ≠ v2 ∧ ps.nextId < ps1.nextId ∧ ps1.nextId < ps2.nextId)
    ∧ (info.deps = [] →
        getService reg (fuel1 + 1) h shape ps ls
          = (.ok ps.nextId, ⟨ps.singletons, ps.nextId + 1⟩, ls)) := by
  constructor
  · intro v1 ps1 ls1 v2 ps2 ls2 hok1 hok2
    rcases hr1 : resolveDepsWith (getService reg fuel1) info.deps ps ls
      with ⟨r1, psd1, lsd1⟩
    simp only [getService, hreg, if_pos hsh, hlt, hr1] at hok1
    cases r1 with
    | error e => simp at hok1
    | ok vs1 =>
      simp only [Prod.mk.injEq] at hok1
      obtain ⟨e1, e2, e3⟩ := hok1
      have hv1 : psd1.nextId = v1 := Except.ok.inj e1
      rcases hr2 : resolveDepsWith (getService reg fuel2) info.deps ps1 ls1
        with ⟨r2, psd2, lsd2⟩
      simp only [getService, hreg, if_pos hsh, hlt, hr2] at hok2
      cases r2 with
      | error e => simp at hok2
      | ok vs2 =>
        simp only [Prod.mk.injEq] at hok2
        obtain ⟨f1, f2, f3⟩ := hok2
        have hv2 : psd2.nextId = v2 := Except.ok.inj f1
        have hevd1 := resolveDepsWith_evolves (getService reg fuel1)
          (fun hD sD ps0 ls0 => (getService_evolves reg fuel1 hD sD ps0 ls0).1)
          info.deps ps ls
        rw [hr1] at hevd1
        have hevd2 := resolveDepsWith_evolves (getService reg fuel2)
          (fun hD sD ps0 ls0 => (getService_evolves reg fuel2 hD sD ps0 ls0).1)
          info.deps ps1 ls1
        rw [hr2] at hevd2
        have hn1 : ps.nextId ≤ psd1.nextId := hevd1.1
        have hn2 : ps1.nextId ≤ psd2.nextId := hevd2.1
        have hps1 : ps1.nextId = psd1.nextId + 1 := by rw [← e2]
        have hps2 : ps2.nextId = psd2.nextId + 1 := by rw [← f2]
        refine ⟨?_, ?_, ?_⟩
        · have : v1 < v2 := by
            rw [← hv1, ← hv2]
            exact Nat.lt_of_lt_of_le (hps1 ▸ Nat.lt_succ_self psd1.nextId) hn2
          exact Nat.ne_of_lt this
        · rw [hps1]
          exact Nat.lt_succ_of_le hn1
        · rw [hps2]
          exact Nat.lt_succ_of_le hn2
  · intro hd
    simp only [getService, hreg, if_pos hsh, hlt, hd, resolveDepsWith]

/-- Claim C4: calling `get` for an identity with no registered descriptor fails
with the `service_not_found` condition and changes nothing; a dependency whose
resolution fails aborts its enclosing dependency list with the same error; and a
failed dependency list makes the enclosing (uncached) `get` fail with the same
error — composed, a missing identity at any dependency depth propagates
`service_not_found` through every enclosing `load` and aborts the whole outer
resolution. -/
theorem missing_service_propagates (reg : Registry) (fuel : Nat) :
    (∀ (h : type_key_pair) (shape : Nat) (ps : ProviderState)
        (ls : ServiceStorageMemory),
        mapFind reg h = none →
        getService reg (fuel + 1) h shape ps ls
          = (.error .service_not_found, ps, ls))
    ∧ (∀ (g : type_key_pair → Nat → ProviderState → ServiceStorageMemory →
          Except di_error Nat × ProviderState × ServiceStorageMemory)
        (pre : List (type_key_pair × Nat)) (d : type_key_pair × Nat)
        (rest : List (type_key_pair × Nat)) (ps : ProviderState)
        (ls : ServiceStorageMemory) (vs : List Nat) (ps1 : ProviderState)
        (ls1 : ServiceStorageMemory) (e : di_error) (ps2 : ProviderState)
        (ls2 : ServiceStorageMemory),
        resolveDepsWith g pre ps ls = (.ok vs, ps1, ls1) →
        g d.1 d.2 ps1 ls1 = (.error e, ps2, ls2) →
        resolveDepsWith g (pre ++ d :: rest) ps ls = (.error e, ps2, ls2))
    ∧ (∀ (h : type_key_pair) (shape : Nat) (info : service_info)
        (ps : ProviderState) (ls : ServiceStorageMemory) (e : di_error)
        (ps1 : ProviderState) (ls1 : ServiceStorageMemory),
        mapFind reg h = some info → info.shape = shape →
        storeFind ls h = none → storeFind ps.singletons h = none →
        resolveDepsWith (getService reg fuel) info.deps ps ls
          = (.error e, ps1, ls1) →
        getService reg (fuel + 1) h shape ps ls = (.error e, ps1, ls1)) := by
  refine ⟨?_, ?_, ?_⟩
  · intro h shape ps ls hmiss
    simp only [getService, hmiss]
  · intro g pre d rest ps ls vs ps1 ls1 e ps2 ls2 hpre hg
    exact resolveDepsWith_append_error g pre d rest ps ls vs ps1 ls1 e ps2 ls2
      hpre hg
  · intro h shape info ps ls e ps1 ls1 hreg hsh hlsl hsing hr
    exact getService_deps_error reg fuel h shape info ps ls e ps1 ls1
      hreg hsh hlsl hsing hr

/-- Claim C5: a `get` of a service `S` whose dependency list contains an
unregistered identity `hD` (after a prefix of dependencies that resolve
successfully) fails with `service_not_found`, and no instance for `S` is cached in
either instance store: the final state is exactly the state the successful prefix
left behind, and it holds no entry for `S`. -/
theorem failed_dependency_caches_nothing (reg : Registry) (fuel : Nat)
    (h hD : type_key_pair) (shape sD : Nat) (info : service_info)
    (pre rest : List (type_key_pair × Nat)) (ps ps1 : ProviderState)
    (ls ls1 : ServiceStorageMemory) (vs : List Nat)
    (hreg : mapFind reg h = some info) (hsh : info.shape = shape)
    (hdeps : info.deps = pre ++ (hD, sD) :: rest)
    (hmiss : mapFind reg hD = none)
    (hlsl : storeFind ls h = none) (hsing : storeFind ps.singletons h = none)
    (hpre : resolveDepsWith (getService reg (fuel + 1)) pre ps ls
      = (.ok vs, ps1, ls1))
    (hls1 : storeFind ls1 h = none)
    (hsing1 : storeFind ps1.singletons h = none) :
    getService reg (fuel + 2) h shape ps ls
      = (.error .service_not_found, ps1, ls1)
    ∧ storeFind ls1 h = none ∧ storeFind ps1.singletons h = none := by
  have hdfail : getService reg (fuel + 1) hD sD ps1 ls1
      = (.error .service_not_found, ps1, ls1) := by
    simp only [getService, hmiss]
  have hrd : resolveDepsWith (getService reg (fuel + 1))
      (pre ++ (hD, sD) :: rest) ps ls
      = (.error .service_not_found, ps1, ls1) :=
    resolveDepsWith_append_error (getService reg (fuel + 1)) pre (hD, sD) rest
      ps ls vs ps1 ls1 .service_not_found ps1 ls1 hpre hdfail
  refine ⟨?_, hls1, hsing1⟩
  exact getService_deps_error reg (fuel + 1) h shape info ps ls
    .service_not_found ps1 ls1 hreg hsh hlsl hsing (by rw [hdeps]; exact hrd)

/-- Claim C6: every `emplace` into an instance store appends the newly constructed
instance at the end of the owning list, and the store destructor destroys the owned
instances in reverse order of that list; in particular, instances constructed in
order `i1, i2, i3` in one store are destroyed in order `i3, i2, i1`. -/
theorem teardown_reverse_order :
    (∀ (s : ServiceStorageMemory) (h : type_key_pair) (inst : Nat),
        destructionOrder (storeEmplace s h inst).2 = inst :: destructionOrder s)
    ∧ ∀ (h1 h2 h3 : type_key_pair) (i1 i2 i3 : Nat),
        destructionOrder
          (storeEmplace (storeEmplace (storeEmplace emptyStore h1 i1).2 h2 i2).2
            h3 i3).2
          = [i3, i2, i1] := by
  constructor
  · intro s h inst
    show (s.instances ++ [inst]).reverse = inst :: s.instances.reverse
    simp
  · intro h1 h2 h3 i1 i2 i3
    show ((([] ++ [i1]) ++ [i2]) ++ [i3]).reverse = [i3, i2, i1]
    simp

/-- Claim C7: the combined argument list a service's factory receives consists of
the resolved dependency instances in declared order, followed by the
descriptor-specific constructor arguments: with dependencies `[dA, dB]` resolving
to `vA` and `vB` (in that left-to-right order, threading the state) and extra
argument `x`, the factory is applied to exactly `[vA, vB, x]`. -/
theorem dependency_argument_order
    (g : type_key_pair → Nat → ProviderState → ServiceStorageMemory →
      Except di_error Nat × ProviderState × ServiceStorageMemory)
    (dA dB : type_key_pair) (sA sB x : Nat)
    (ps ps1 ps2 : ProviderState) (ls ls1 ls2 : ServiceStorageMemory)
    (vA vB : Nat)
    (hA : g dA sA ps ls = (.ok vA, ps1, ls1))
    (hB : g dB sB ps1 ls1 = (.ok vB, ps2, ls2)) :
    GetCombinedArgs g [(dA, sA), (dB, sB)] ps ls [x]
      = (.ok [vA, vB, x], ps2, ls2)
    ∧ ∀ (factory : List Nat → List Nat),
        ApplyFactory g [(dA, sA), (dB, sB)] ps ls factory [x]
          = (.ok (factory [vA, vB, x]), ps2, ls2) := by
  have hc : GetCombinedArgs g [(dA, sA), (dB, sB)] ps ls [x]
      = (.ok [vA, vB, x], ps2, ls2) := by
    simp [GetCombinedArgs, resolveDepsWith, hA, hB]
  refine ⟨hc, ?_⟩
  intro factory
  simp [ApplyFactory, hc]

/-- Claim C8: registry `emplace` inserts a descriptor only if the identity key is
absent and returns whether insertion occurred: from a registry without the key, the
first `emplace` inserts and returns true, the key then maps to that first
descriptor, and a second `emplace` for the same key returns false and leaves the
registry — including the first descriptor — unchanged. -/
theorem collection_emplace_idempotent (reg : Registry) (k : type_key_pair)
    (d1 d2 : service_info) (habs : mapFind reg k = none) :
    emplace_service reg k d1 = (true, reg ++ [(k, d1)])
    ∧ mapFind (reg ++ [(k, d1)]) k = some d1
    ∧ emplace_service (reg ++ [(k, d1)]) k d2 = (false, reg ++ [(k, d1)]) := by
  have hfind : mapFind (reg ++ [(k, d1)]) k = some d1 :=
    mapFind_append_self reg k d1 habs
  refine ⟨?_, hfind, ?_⟩
  · simp [emplace_service, habs]
  · simp [emplace_service, hfind]

/-- Claim C9: requesting an identity that is registered, but with a descriptor
shape different from the requested one, fails with exactly the same user-visible
error value `service_not_found` as requesting an identity with no registration at
all — a type mismatch at the identity level is not a distinct error kind. -/
theorem wrong_shape_service_not_found (reg : Registry) (fuel : Nat)
    (h h2 : type_key_pair) (shape shape2 : Nat) (info : service_info)
    (ps : ProviderState) (ls : ServiceStorageMemory)
    (hreg : mapFind reg h = some info) (hsh : info.shape ≠ shape) :
    getService reg (fuel + 1) h shape ps ls
      = (.error .service_not_found, ps, ls)
    ∧ (mapFind reg h2 = none →
        getService reg (fuel + 1) h2 shape2 ps ls
          = (.error .service_not_found, ps, ls)) := by
  constructor
  · simp only [getService, hreg, if_neg hsh]
  · intro hmiss
    simp only [getService, hmiss]

/-- Claim C10: in the default instance store, an `emplace` for an identity key that
is already aliased constructs and appends a second owned instance to the owning
(teardown) list, but does not overwrite the alias map: the duplicate `emplace` call
returns the first instance, every subsequent `find` for that key still returns the
first instance, and both owned instances are on the teardown list, the duplicate
being destroyed first. -/
theorem store_duplicate_emplace (s : ServiceStorageMemory) (h : type_key_pair)
    (v inst : Nat) (hfound : storeFind s h = some v) :
    storeEmplace s h inst = (v, ⟨s.instances ++ [inst], s.instanceRefs⟩)
    ∧ storeFind (storeEmplace s h inst).2 h = some v
    ∧ destructionOrder (storeEmplace s h inst).2
        = inst :: destructionOrder s := by
  have hm : mapEmplace s.instanceRefs h inst = (v, s.instanceRefs) :=
    mapEmplace_of_find_some s.instanceRefs h inst v hfound
  have h1 : storeEmplace s h inst = (v, ⟨s.instances ++ [inst], s.instanceRefs⟩) := by
    simp only [storeEmplace, hm]
  refine ⟨h1, ?_, ?_⟩
  · rw [h1]
    exact hfound
  · rw [h1]
    show (s.instances ++ [inst]).reverse = inst :: s.instances.reverse
    simp

/-! ### More concrete fixtures -/

/-- An identity key for a dependency-free transient registration. -/
def kT : type_key_pair := ⟨3, 0⟩

/-- A registry with one dependency-free transient service. -/
def regT : Registry := [(kT, ⟨.transient, [], 0⟩)]

/-- An identity key that is never registered. -/
def kMissing : type_key_pair := ⟨4, 0⟩

/-- An identity key for a scoped service depending on the unregistered
`kMissing`. -/
def kS : type_key_pair := ⟨5, 0⟩

/-- A registry where `kS` declares the unregistered dependency `kMissing`. -/
def regS : Registry := [(kS, ⟨.scoped, [(kMissing, 0)], 0⟩)]

/-- An identity key for a singleton service depending on the unregistered
`kD5`. -/
def kS5 : type_key_pair := ⟨6, 0⟩

/-- An identity key that is never registered. -/
def kD5 : type_key_pair := ⟨7, 0⟩

/-- A registry where `kS5` declares the unregistered dependency `kD5`. -/
def regS5 : Registry := [(kS5, ⟨.singleton, [(kD5, 1)], 2⟩)]

/-- An identity key for the first of two transient services. -/
def kA : type_key_pair := ⟨8, 0⟩

/-- An identity key for the second of two transient services. -/
def kB : type_key_pair := ⟨9, 0⟩

/-- A registry with two dependency-free transient services of distinct shapes. -/
def regAB : Registry := [(kA, ⟨.transient, [], 0⟩), (kB, ⟨.transient, [], 1⟩)]

/-- An identity key registered with descriptor shape 5, requested with the wrong
shape 6 (mirroring the `ServiceNotFoundException_WrongType` test). -/
def kCls : type_key_pair := ⟨10, 0⟩

/-- A registry with one singleton service of descriptor shape 5. -/
def regC9 : Registry := [(kCls, ⟨.singleton, [], 5⟩)]

/-! ### Witnesses -/

/-- Witness for `singleton_sharing`: after the first `get` of the singleton
`kWindow` allocated instance 0, a second `get` from a fresh sibling scope returns
instance 0 and leaves the provider state unchanged. -/
theorem singleton_sharing_witness :
    getService regWindow 1 kWindow 0 ⟨⟨[0], [(kWindow, 0)]⟩, 1⟩ emptyStore
      = (.ok 0, ⟨⟨[0], [(kWindow, 0)]⟩, 1⟩, emptyStore) :=
  singleton_sharing regWindow 0 kWindow 0 psEmpty emptyStore
    ⟨.singleton, [], 0⟩ 0 ⟨⟨[0], [(kWindow, 0)]⟩, 1⟩ emptyStore
    rfl rfl rfl rfl 0 emptyStore

/-- Witness for `scoped_isolation`: the scoped `kDep` resolves to instance 0 in the
first fresh scope and to instance 1 in a sibling fresh scope, and a repeated `get`
in the first scope returns instance 0 again. -/
theorem scoped_isolation_witness :
    (0 : Nat) ≠ 1
    ∧ getService regTransDep 1 kDep 0 psEmpty ⟨[0], [(kDep, 0)]⟩
        = (.ok 0, psEmpty, ⟨[0], [(kDep, 0)]⟩) := by
  have hthm := scoped_isolation regTransDep 0 0 kDep 0 psEmpty
    ⟨.scoped, [], 0⟩ 0 ⟨emptyStore, 1⟩ ⟨[0], [(kDep, 0)]⟩
    1 ⟨emptyStore, 2⟩ ⟨[1], [(kDep, 1)]⟩
    rfl rfl rfl (storeWF_empty 0) rfl rfl
  exact ⟨hthm.1, hthm.2 0 psEmpty⟩

/-- Witness for `transient_freshness`: two consecutive `get` calls of the
dependency-free transient `kT` return the distinct instances 0 and 1, and the
first call leaves both stores unchanged. -/
theorem transient_freshness_witness :
    (0 : Nat) ≠ 1
    ∧ getService regT 1 kT 0 psEmpty emptyStore
        = (.ok 0, ⟨emptyStore, 1⟩, emptyStore) := by
  have hthm := transient_freshness regT 0 0 kT 0 psEmpty emptyStore
    ⟨.transient, [], 0⟩ rfl rfl rfl
  exact ⟨(hthm.1 0 ⟨emptyStore, 1⟩ emptyStore 1 ⟨emptyStore, 2⟩ emptyStore
    rfl rfl).1, hthm.2 rfl⟩

/-- Witness for `missing_service_propagates`: the unregistered `kMissing` fails
directly with `service_not_found`; it also fails as the sole entry of a dependency
list; and the `get` of `kS`, which declares that dependency, fails with the same
error, all from a fresh provider. -/
theorem missing_service_propagates_witness :
    getService regS 2 kMissing 0 psEmpty emptyStore
        = (.error .service_not_found, psEmpty, emptyStore)
    ∧ resolveDepsWith (getService regS 1) [(kMissing, 0)] psEmpty emptyStore
        = (.error .service_not_found, psEmpty, emptyStore)
    ∧ getService regS 2 kS 0 psEmpty emptyStore
        = (.error .service_not_found, psEmpty, emptyStore) := by
  have hthm := missing_service_propagates regS 1
  refine ⟨hthm.1 kMissing 0 psEmpty emptyStore rfl, ?_, ?_⟩
  · exact hthm.2.1 (getService regS 1) [] (kMissing, 0) [] psEmpty emptyStore
      [] psEmpty emptyStore .service_not_found psEmpty emptyStore rfl rfl
  · exact hthm.2.2 kS 0 ⟨.scoped, [(kMissing, 0)], 0⟩ psEmpty emptyStore
      .service_not_found psEmpty emptyStore rfl rfl rfl rfl rfl

/-- Witness for `failed_dependency_caches_nothing`: the singleton `kS5` depends on
the unregistered `kD5`; its `get` from a fresh provider fails with
`service_not_found`, and neither store holds an entry for `kS5` afterwards. -/
theorem failed_dependency_caches_nothing_witness :
    getService regS5 2 kS5 2 psEmpty emptyStore
        = (.error .service_not_found, psEmpty, emptyStore)
    ∧ storeFind emptyStore kS5 = none
    ∧ storeFind psEmpty.singletons kS5 = none :=
  failed_dependency_caches_nothing regS5 0 kS5 kD5 2 1
    ⟨.singleton, [(kD5, 1)], 2⟩ [] [] psEmpty psEmpty emptyStore emptyStore []
    rfl rfl rfl rfl rfl rfl rfl rfl rfl

/-- Witness for `dependency_argument_order`: with the transients `kA` and `kB`
resolving to instances 0 and 1, the combined argument list for extra argument 7 is
exactly `[0, 1, 7]`. -/
theorem dependency_argument_order_witness :
    GetCombinedArgs (getService regAB 1) [(kA, 0), (kB, 1)] psEmpty emptyStore [7]
      = (.ok [0, 1, 7], ⟨emptyStore, 2⟩, emptyStore) :=
  (dependency_argument_order (getService regAB 1) kA kB 0 1 7 psEmpty
    ⟨emptyStore, 1⟩ ⟨emptyStore, 2⟩ emptyStore emptyStore emptyStore 0 1
    rfl rfl).1

/-- Witness for `collection_emplace_idempotent`: the first `emplace` of `kWindow`
into an empty registry inserts and returns true, the second returns false and
leaves the first descriptor intact. -/
theorem collection_emplace_idempotent_witness :
    emplace_service [] kWindow ⟨.singleton, [], 0⟩
        = (true, [(kWindow, ⟨.singleton, [], 0⟩)])
    ∧ mapFind [(kWindow, (⟨.singleton, [], 0⟩ : service_info))] kWindow
        = some ⟨.singleton, [], 0⟩
    ∧ emplace_service [(kWindow, ⟨.singleton, [], 0⟩)] kWindow ⟨.transient, [], 3⟩
        = (false, [(kWindow, ⟨.singleton, [], 0⟩)]) :=
  collection_emplace_idempotent [] kWindow ⟨.singleton, [], 0⟩
    ⟨.transient, [], 3⟩ rfl

/-- Witness for `wrong_shape_service_not_found`: requesting `kCls` (registered with
shape 5) with shape 6, and requesting the unregistered identity `(11, 0)`, both
fail with the identical `service_not_found` outcome. -/
theorem wrong_shape_service_not_found_witness :
    getService regC9 1 kCls 6 psEmpty emptyStore
        = (.error .service_not_found, psEmpty, emptyStore)
    ∧ getService regC9 1 ⟨11, 0⟩ 6 psEmpty emptyStore
        = (.error .service_not_found, psEmpty, emptyStore) := by
  have hthm := wrong_shape_service_not_found regC9 0 kCls ⟨11, 0⟩ 6 6
    ⟨.singleton, [], 5⟩ psEmpty emptyStore rfl (by decide)
  exact ⟨hthm.1, hthm.2 rfl⟩

/-- Witness for `store_duplicate_emplace`: emplacing instance 1 under `kWindow`
into a store already aliasing instance 0 for `kWindow` returns instance 0, keeps
`find` at instance 0, and appends instance 1 to the teardown list. -/
theorem store_duplicate_emplace_witness :
    storeEmplace ⟨[0], [(kWindow, 0)]⟩ kWindow 1
        = (0, ⟨[0, 1], [(kWindow, 0)]⟩)
    ∧ storeFind (storeEmplace ⟨[0], [(kWindow, 0)]⟩ kWindow 1).2 kWindow = some 0
    ∧ destructionOrder (storeEmplace ⟨[0], [(kWindow, 0)]⟩ kWindow 1).2
        = 1 :: destructionOrder ⟨[0], [(kWindow, 0)]⟩ :=
  store_duplicate_emplace ⟨[0], [(kWindow, 0)]⟩ kWindow 0 1 rfl

end Dipp
